import Mathlib

/-!
Verification of the agent coordination layer of the eigent backend:
the task-dependency graph (`orchestrator.py`), checkpoint persistence
(`checkpoint.py`), error classification (`error_recovery.py`), the
message-bus response path (`agent_protocol.py`), the reflection loop
(`reflection.py`) and the model fallback chain (`model_fallback.py`).

Python dictionaries are modelled as association lists in insertion
order; Python string operations (substring search, prefix glob,
lexicographic sort) are modelled over `String` / `List Char`.
-/

/-! ## Association-list model of Python dict -/

/-- Lookup by key, as `d[k]` / `d.get(k)` on a Python dict
(first entry with the key; keys are unique in dicts produced by the code). -/
def dictGet {α : Type} : List (String × α) → String → Option α
  | [], _ => none
  | p :: t, k => if p.1 = k then some p.2 else dictGet t k

/-- Insert-or-overwrite by key, as `d[k] = v` on a Python dict:
an existing key keeps its position and gets the new value, a fresh key
is appended at the end (insertion order). -/
def dictInsert {α : Type} : List (String × α) → String → α → List (String × α)
  | [], k, v => [(k, v)]
  | p :: t, k, v => if p.1 = k then (k, v) :: t else p :: dictInsert t k v

/-! ## Substring search: Python `pat in s` / `re.search` on literal alternations -/

/-- Does `p` occur as a contiguous sublist of `l`?  (Python `pat in s`.) -/
def subOccurs (p : List Char) : List Char → Bool
  | [] => p.isPrefixOf []
  | c :: t => p.isPrefixOf (c :: t) || subOccurs p t

/-- Python substring test `pat in s`. -/
def strContainsSub (s pat : String) : Bool :=
  subOccurs pat.data s.data

/-- `msg` mentions `sub`: `sub` occurs contiguously inside `msg`. -/
def mentionsStr (msg sub : String) : Prop :=
  ∃ pre post, msg = pre ++ sub ++ post

/-- Python `s.lower()` (ASCII case folding, which covers every string the code builds). -/
def lowerStr (s : String) : String :=
  ⟨s.data.map Char.toLower⟩

/-- Python slicing `s[:n]` (by code points). -/
def takeStr (s : String) (n : Nat) : String :=
  ⟨s.data.take n⟩

/-- Lexicographic comparison of char sequences by code point, the order
Python uses to sort strings. -/
def charsLe : List Char → List Char → Bool
  | [], _ => true
  | _ :: _, [] => false
  | a :: s, b :: t =>
    if a.toNat < b.toNat then true
    else if b.toNat < a.toNat then false
    else charsLe s t

/-- Python string comparison `a <= b`. -/
def strLe (a b : String) : Bool :=
  charsLe a.data b.data

/-- The order `sorted` uses on strings, as a relation. -/
def strLeRel (a b : String) : Prop :=
  strLe a b = true

instance : DecidableRel strLeRel :=
  fun a b => inferInstanceAs (Decidable (strLe a b = true))

/-! ## orchestrator.py: TaskStatus, TaskNode, TaskGraph -/

/-- `TaskStatus` enum of `orchestrator.py`. -/
inductive TaskStatus where
  | pending
  | running
  | completed
  | failed
  deriving DecidableEq, Repr

/-- `TaskNode` dataclass of `orchestrator.py`. -/
structure TaskNode where
  id : String
  content : String
  agent : String
  depends_on : List String := []
  status : TaskStatus := .pending
  result : Option String := none
  deriving DecidableEq, Repr

/-- `TaskGraph` of `orchestrator.py`: dict of nodes plus optional root. -/
structure TaskGraph where
  nodes : List (String × TaskNode)
  root : Option String
  deriving DecidableEq, Repr

/-- `TaskGraph.__init__`. -/
def TaskGraph.emptyGraph : TaskGraph := ⟨[], none⟩

/-- `TaskGraph.add_node`: store the node under its id; if it has no
dependencies and no root is set it becomes the root. -/
def addNode (g : TaskGraph) (n : TaskNode) : TaskGraph :=
  let g2 : TaskGraph := ⟨dictInsert g.nodes n.id n, g.root⟩
  if n.depends_on.isEmpty && g2.root.isNone then ⟨g2.nodes, some n.id⟩ else g2

/-- A sequence of `add_node` calls. -/
def addNodes (g : TaskGraph) (l : List TaskNode) : TaskGraph :=
  l.foldl addNode g

/-- The dependency check inside `get_ready_tasks`:
`all(self.nodes[dep_id].status == COMPLETED for dep_id in node.depends_on if dep_id in self.nodes)`. -/
def depSatisfied (nodes : List (String × TaskNode)) (dep : String) : Bool :=
  match dictGet nodes dep with
  | some d => d.status = .completed
  | none => true

/-- `TaskGraph.get_ready_tasks`. -/
def getReadyTasks (g : TaskGraph) : List TaskNode :=
  (g.nodes.filter (fun p =>
    decide (p.2.status = .pending) && p.2.depends_on.all (depSatisfied g.nodes))).map
    (fun p => p.2)

/-- `TaskGraph.mark_complete`. -/
def markComplete (g : TaskGraph) (nodeId : String) (result : Option String) : TaskGraph :=
  if (dictGet g.nodes nodeId).isSome then
    ⟨g.nodes.map (fun p =>
      if p.1 = nodeId then (p.1, { p.2 with status := .completed, result := result }) else p),
     g.root⟩
  else g

/-- `TaskGraph.mark_running`. -/
def markRunning (g : TaskGraph) (nodeId : String) : TaskGraph :=
  if (dictGet g.nodes nodeId).isSome then
    ⟨g.nodes.map (fun p =>
      if p.1 = nodeId then (p.1, { p.2 with status := .running }) else p),
     g.root⟩
  else g

/-- `TaskGraph.mark_failed`. -/
def markFailed (g : TaskGraph) (nodeId : String) : TaskGraph :=
  if (dictGet g.nodes nodeId).isSome then
    ⟨g.nodes.map (fun p =>
      if p.1 = nodeId then (p.1, { p.2 with status := .failed }) else p),
     g.root⟩
  else g

/-! ## checkpoint.py: CheckpointManager -/

/-- `TaskStatus.value`: the string stored in a checkpoint file. -/
def statusValue : TaskStatus → String
  | .pending => "pending"
  | .running => "running"
  | .completed => "completed"
  | .failed => "failed"

/-- `TaskStatus(s)`: parse the stored string back into the enum
(`none` models the `ValueError` raised on an unknown value). -/
def statusParse (s : String) : Option TaskStatus :=
  if s = "pending" then some .pending
  else if s = "running" then some .running
  else if s = "completed" then some .completed
  else if s = "failed" then some .failed
  else none

/-- One node of the JSON-compatible dict built by `_serialize_graph`. -/
structure SerializedNode where
  id : String
  content : String
  agent : String
  depends_on : List String
  status : String
  result : Option String
  deriving DecidableEq, Repr

/-- The JSON-compatible dict built by `_serialize_graph`. -/
structure SerializedGraph where
  nodes : List (String × SerializedNode)
  root : Option String
  deriving DecidableEq, Repr

/-- One entry of the node dict built by `_serialize_graph`. -/
def serializeEntry (p : String × TaskNode) : String × SerializedNode :=
  (p.1, ⟨p.2.id, p.2.content, p.2.agent, p.2.depends_on, statusValue p.2.status, p.2.result⟩)

/-- `CheckpointManager._serialize_graph`. -/
def serializeGraph (g : TaskGraph) : SerializedGraph :=
  ⟨g.nodes.map serializeEntry, g.root⟩

/-- One step of the loop in `_deserialize_graph` (fails on an unknown status string). -/
def deserializeEntry (p : String × SerializedNode) : Option (String × TaskNode) :=
  (statusParse p.2.status).map (fun st =>
    (p.1, ⟨p.2.id, p.2.content, p.2.agent, p.2.depends_on, st, p.2.result⟩))

/-- `CheckpointManager._deserialize_graph`. -/
def deserializeGraph (d : SerializedGraph) : Option TaskGraph :=
  (d.nodes.mapM deserializeEntry).map (fun ns => ⟨ns, d.root⟩)

/-- The persisted record of one checkpoint file (`checkpoint_data` in `save`);
`Ctx` is the opaque JSON-compatible context map. -/
structure CheckpointData (Ctx : Type) where
  checkpoint_id : String
  task_id : String
  timestamp : String
  graph : SerializedGraph
  context : Ctx

/-- The checkpoint directory: one record per file, keyed by checkpoint id
(file stem); kept in creation order. -/
def CheckpointStore (Ctx : Type) : Type := List (String × CheckpointData Ctx)

/-- What `CheckpointManager.load` returns. -/
structure LoadedCheckpoint (Ctx : Type) where
  checkpoint_id : String
  task_id : String
  timestamp : String
  graph : TaskGraph
  context : Ctx

/-- `CheckpointManager.save`. `nowCompact` stands for
`datetime.now().strftime("%Y%m%d_%H%M%S")`, `nowIso` for
`datetime.now().isoformat()` and `suffix` for `uuid.uuid4().hex[:8]`
(the nondeterministic inputs, passed explicitly). -/
def saveCheckpoint {Ctx : Type} (store : CheckpointStore Ctx) (task_id : String)
    (graph : TaskGraph) (context : Ctx) (nowCompact nowIso suffix : String) :
    String × CheckpointStore Ctx :=
  let checkpoint_id := task_id ++ "_" ++ nowCompact ++ "_" ++ suffix
  (checkpoint_id,
   dictInsert store checkpoint_id ⟨checkpoint_id, task_id, nowIso, serializeGraph graph, context⟩)

/-- `CheckpointManager.load` (`none` models `FileNotFoundError` /
a `ValueError` from an unknown status). -/
def loadCheckpoint {Ctx : Type} (store : CheckpointStore Ctx) (checkpoint_id : String) :
    Option (LoadedCheckpoint Ctx) :=
  match dictGet store checkpoint_id with
  | none => none
  | some d =>
    (deserializeGraph d.graph).map (fun g =>
      ⟨d.checkpoint_id, d.task_id, d.timestamp, g, d.context⟩)

/-- `Path.glob(f"{task_id}_*.json")` on checkpoint files: the stem matches
iff it starts with `task_id` followed by an underscore. -/
def globMatches (task_id stem : String) : Bool :=
  (task_id ++ "_").data.isPrefixOf stem.data

/-- `CheckpointManager.list_checkpoints`: collect matching stems, then `sorted(...)`
(lexicographic, as Python sorts strings). -/
def listCheckpoints {Ctx : Type} (store : CheckpointStore Ctx) (task_id : String) :
    List String :=
  List.insertionSort strLeRel
    ((store.map Prod.fst).filter (globMatches task_id))

/-- `CheckpointManager.delete`. -/
def deleteCheckpoint {Ctx : Type} (store : CheckpointStore Ctx) (checkpoint_id : String) :
    Bool × CheckpointStore Ctx :=
  if (dictGet store checkpoint_id).isSome then
    (true, store.filter (fun p => decide (p.1 ≠ checkpoint_id)))
  else (false, store)

/-! ## error_recovery.py: ErrorRecovery -/

/-- `RecoveryStrategy` enum. -/
inductive RecoveryStrategy where
  | retry
  | fallback
  | human_help
  | abort
  deriving DecidableEq, Repr

/-- `RecoveryResult` dataclass. -/
structure RecoveryResult where
  strategy : RecoveryStrategy
  user_message : String
  wait_seconds : Nat := 0
  question_for_user : Option String := none
  suggested_action : Option String := none
  deriving DecidableEq, Repr

/-- One row of `ERROR_PATTERNS`: the regex is a plain alternation of
literal substrings, kept as the list of alternatives. -/
structure ErrorRule where
  alts : List String
  strategy : RecoveryStrategy
  message : String
  wait : Nat
  deriving DecidableEq, Repr

/-- `re.search(pattern, s)` for an alternation of literals: some
alternative occurs as a substring. -/
def reMatches (alts : List String) (s : String) : Bool :=
  alts.any (fun a => strContainsSub s a)

/-- The `ERROR_PATTERNS` table, in source order. -/
def ERROR_PATTERNS : List ErrorRule :=
  [⟨["rate limit", "too many requests", "429"], .retry, "Rate limit hit", 30⟩,
   ⟨["timeout", "timed out"], .retry, "Request timed out", 5⟩,
   ⟨["connection", "network", "unreachable"], .retry, "Network issue", 10⟩,
   ⟨["permission", "access denied", "forbidden", "403"], .human_help, "Permission issue", 0⟩,
   ⟨["not found", "404", "does not exist"], .human_help, "Resource not found", 0⟩,
   ⟨["invalid", "malformed", "parse error"], .fallback, "Invalid response", 0⟩]

/-- `ErrorRecovery.analyze`.  `error` is `str(error)` for the exception. -/
def analyze (max_retries : Nat) (error task_content : String) (attempt_count : Nat) :
    RecoveryResult :=
  let error_str := lowerStr error
  match ERROR_PATTERNS.find? (fun r => reMatches r.alts error_str) with
  | some r =>
    if r.strategy = .retry ∧ attempt_count > max_retries then
      ⟨.fallback,
       r.message ++ ". Tried " ++ toString attempt_count ++ " times. Trying alternative approach.",
       0, none, some "Use fallback model or method"⟩
    else if r.strategy = .human_help then
      ⟨r.strategy, r.message ++ ": " ++ error, 0,
       some ("I encountered an issue: " ++ error ++ ". Can you help resolve this or provide an alternative?"),
       none⟩
    else
      ⟨r.strategy, r.message ++ ". Retrying in " ++ toString r.wait ++ " seconds...", r.wait,
       none, none⟩
  | none =>
    ⟨.human_help, "Unexpected error: " ++ error, 0,
     some ("I encountered an unexpected error while working on \x27" ++ takeStr task_content 50 ++
       "...\x27: " ++ error ++ ". How would you like me to proceed?"),
     none⟩

/-! ## agent_protocol.py: MessageBus.respond -/

/-- `MessageType` enum. -/
inductive MessageType where
  | request
  | response
  | info
  | error
  deriving DecidableEq, Repr

/-- `AgentMessage` dataclass (`timestamp` is an abstract clock value). -/
structure AgentMessage where
  sender : String
  recipient : String
  message_type : MessageType
  content : String
  correlation_id : Option String := none
  timestamp : Nat := 0
  deriving DecidableEq, Repr

/-- State of one `asyncio.Future` slot in `_pending_responses`. -/
inductive FutureState where
  | unresolved
  | resolved (msg : AgentMessage)
  deriving DecidableEq, Repr

/-- `MessageBus.respond`, acting on the `_pending_responses` map.
`if original.correlation_id` is Python truthiness: false for `None`
and for the empty string.  A slot that is absent or already resolved
(`future.done()`) is left untouched. -/
def respond (pending : List (String × FutureState)) (original : AgentMessage)
    (response_content : String) (now : Nat) : List (String × FutureState) :=
  match original.correlation_id with
  | none => pending
  | some cid =>
    if cid = "" then pending
    else
      match dictGet pending cid with
      | some .unresolved =>
        dictInsert pending cid
          (.resolved ⟨original.recipient, original.sender, .response, response_content,
            some cid, now⟩)
      | _ => pending

/-! ## reflection.py: ReflectionLoop -/

/-- `REFLECTION_PROMPT.format(task=task, result=result)`. -/
def reflectionPrompt (task result : String) : String :=
  "\nEvaluate this result for the given task.\n\nTask: " ++ task ++ "\nResult: " ++ result ++
  "\n\nAnalyze:\n1. Does the result fully address the task?\n2. Are there any errors or omissions?\n3. Could the result be improved?\n\nIf the result is acceptable, explain why it\x27s good.\nIf it needs improvement, start your response with \"NEEDS_IMPROVEMENT:\" followed by specific feedback.\n"

/-- An evaluator reply: `none` models a response without a `msgs`
attribute, `some l` a response whose `msgs` carry the listed contents. -/
abbrev StepResponse := Option (List String)

/-- Feedback extraction: `response.msgs[0].content` when messages exist,
the empty string otherwise. -/
def extractFeedback : StepResponse → String
  | some (c :: _) => c
  | _ => ""

/-- `"NEEDS_IMPROVEMENT:" in feedback`. -/
def hasMarker (feedback : String) : Bool :=
  strContainsSub feedback "NEEDS_IMPROVEMENT:"

/-- `ReflectionResult` dataclass, generic over the result type. -/
structure ReflectionResult (R : Type) where
  approved : Bool
  retry_count : Nat
  final_result : R
  feedback_history : List String

/-- The `for retry in range(max_retries + 1)` loop of `ReflectionLoop.reflect`.
`step k prompt` is the reply of the (stateful) agent to its k-th call;
`fuel` counts the remaining loop iterations and `retry` the loop index,
so the loop starts at `fuel = max_retries + 1`, `retry = 0`. -/
def reflectGo {R : Type} (step : Nat → String → StepResponse) (render : R → String)
    (task : String) (execute_fn : Option (String → R)) (max_retries : Nat) :
    Nat → Nat → R → List String → ReflectionResult R
  | 0, _, cur, hist => ⟨false, max_retries, cur, hist⟩
  | fuel + 1, retry, cur, hist =>
    let prompt := reflectionPrompt task (render cur)
    let feedback := extractFeedback (step retry prompt)
    if hasMarker feedback = false then ⟨true, retry, cur, hist⟩
    else
      let hist2 := hist ++ [feedback]
      match execute_fn with
      | none => ⟨false, retry, cur, hist2⟩
      | some f =>
        if retry < max_retries then
          reflectGo step render task execute_fn max_retries fuel (retry + 1) (f feedback) hist2
        else
          reflectGo step render task execute_fn max_retries fuel (retry + 1) cur hist2

/-- `ReflectionLoop.reflect` (`render` stands for the `str(...)` applied to
the result when it is spliced into the prompt). -/
def reflect {R : Type} (step : Nat → String → StepResponse) (render : R → String)
    (task : String) (result : R) (execute_fn : Option (String → R)) (max_retries : Nat) :
    ReflectionResult R :=
  reflectGo step render task execute_fn max_retries (max_retries + 1) 0 result []

/-! ## model_fallback.py: FallbackChain -/

/-- One `{"provider": ..., "model": ...}` entry of `FallbackChain.models`. -/
structure ModelConfig where
  provider : String
  model : String
  deriving DecidableEq, Repr

/-- A model reply: `none` models a response without a `msgs` attribute,
`some l` a response whose `msgs` carry the listed contents. -/
abbrev ModelResponse := Option (List String)

/-- What `FallbackChain.call` returns on success: the first message of the
response, or the raw response when it exposes no messages. -/
inductive CallReturn where
  | msg (content : String)
  | raw (resp : ModelResponse)
  deriving DecidableEq, Repr

/-- `f"{p}/{m}: {e}"` for one attempted (provider, model, error) triple. -/
def fmtError (t : String × String × String) : String :=
  t.1 ++ "/" ++ t.2.1 ++ ": " ++ t.2.2

/-- Python `sep.join(l)`. -/
def joinSep (sep : String) : List String → String
  | [] => ""
  | [x] => x
  | x :: y :: t => x ++ sep ++ joinSep sep (y :: t)

/-- Result of `FallbackChain.call` together with the mutated chain fields. -/
structure FallbackOutcome where
  result : Except String CallReturn
  last_used_provider : Option String
  last_error : Option String

/-- The loop of `FallbackChain.call`.  Each chain entry is paired with the
outcome of `adapter resolution + create_model + step` for it: `.error e`
models any exception (caught and appended to `errors`), `.ok resp` a
successful reply. -/
def callGo (entries : List (ModelConfig × Except String ModelResponse))
    (errs : List (String × String × String)) (lastProv lastErr : Option String) :
    FallbackOutcome :=
  match entries with
  | [] => ⟨.error ("All models failed: " ++ joinSep "; " (errs.map fmtError)), lastProv, lastErr⟩
  | (cfg, out) :: rest =>
    match out with
    | .error e => callGo rest (errs ++ [(cfg.provider, cfg.model, e)]) lastProv (some e)
    | .ok resp =>
      match resp with
      | some (c :: _) => ⟨.ok (.msg c), some cfg.provider, lastErr⟩
      | _ => ⟨.ok (.raw resp), some cfg.provider, lastErr⟩

/-- `FallbackChain.call` on a fresh chain (`last_used_provider = last_error = None`). -/
def fallbackCall (entries : List (ModelConfig × Except String ModelResponse)) :
    FallbackOutcome :=
  callGo entries [] none none

/-- The (provider, model, error) triple recorded for a failed entry. -/
def errTriple (q : ModelConfig × Except String ModelResponse) :
    Option (String × String × String) :=
  match q.2 with
  | .error e => some (q.1.provider, q.1.model, e)
  | .ok _ => none

/-- The loop state of `ReflectionLoop.reflect` after `k` rejected attempts
(with an improvement function): the current result and the accumulated
feedback history.  Each rejected attempt `i < k` appends its feedback and
replaces the result by `execute_fn(feedback)`. -/
def reflectTrace {R : Type} (step : Nat → String → StepResponse) (render : R → String)
    (task : String) (f : String → R) (r : R) : Nat → R × List String
  | 0 => (r, [])
  | k + 1 =>
    let prev := reflectTrace step render task f r k
    let fb := extractFeedback (step k (reflectionPrompt task (render prev.1)))
    (f fb, prev.2 ++ [fb])

/-! # Theorems -/

theorem dictGet_dictInsert_self {α : Type} (l : List (String × α)) (k : String) (v : α) :
    dictGet (dictInsert l k v) k = some v := by
  induction l with
  | nil => simp [dictGet, dictInsert]
  | cons p t ih =>
    by_cases hp : p.1 = k
    · simp [dictGet, dictInsert, hp]
    · simp [dictGet, dictInsert, hp, ih]

theorem dictGet_dictInsert_ne {α : Type} (l : List (String × α)) (k k2 : String) (v : α)
    (h : k2 ≠ k) :
    dictGet (dictInsert l k v) k2 = dictGet l k2 := by
  have hk : ¬k = k2 := fun hq => h hq.symm
  induction l with
  | nil => simp [dictGet, dictInsert, hk]
  | cons p t ih =>
    by_cases hp : p.1 = k
    · have hp2 : ¬p.1 = k2 := by rw [hp]; exact hk
      simp [dictGet, dictInsert, hp, hp2, hk]
    · by_cases hp2 : p.1 = k2
      · simp [dictGet, dictInsert, hp, hp2, h]
      · simp [dictGet, dictInsert, hp, hp2, ih]

theorem dictInsert_key_mem {α : Type} (l : List (String × α)) (k : String) (v : α) :
    k ∈ (dictInsert l k v).map Prod.fst := by
  induction l with
  | nil => simp [dictInsert]
  | cons p t ih =>
    by_cases hp : p.1 = k
    · simp [dictInsert, hp]
    · simp [dictInsert, hp]
      right
      simpa using ih

theorem depSatisfied_iff (nodes : List (String × TaskNode)) (dep : String) :
    depSatisfied nodes dep = true ↔
      ∀ d, dictGet nodes dep = some d → d.status = .completed := by
  unfold depSatisfied
  cases h : dictGet nodes dep with
  | none => simp
  | some d =>
    simp only [decide_eq_true_eq]
    constructor
    · rintro hd d2 hd2
      injection hd2 with hd2
      rw [← hd2]; exact hd
    · intro hall
      exact hall d rfl

/-- C1: `get_ready_tasks` returns exactly the stored nodes that are Pending
and whose every dependency id is either absent from the node map or mapped
to a Completed node (a missing dependency never blocks readiness, and
non-Pending nodes are never returned). -/
theorem claim1_get_ready_tasks (g : TaskGraph) (n : TaskNode) :
    n ∈ getReadyTasks g ↔
      (∃ k, (k, n) ∈ g.nodes) ∧ n.status = .pending ∧
        ∀ dep ∈ n.depends_on, ∀ d, dictGet g.nodes dep = some d → d.status = .completed := by
  unfold getReadyTasks
  rw [List.mem_map]
  constructor
  · rintro ⟨p, hp, rfl⟩
    rw [List.mem_filter] at hp
    obtain ⟨hmem, hpred⟩ := hp
    simp only [Bool.and_eq_true, decide_eq_true_eq, List.all_eq_true] at hpred
    refine ⟨⟨p.1, by simpa using hmem⟩, hpred.1, ?_⟩
    intro dep hdep d hd
    exact (depSatisfied_iff g.nodes dep).mp (hpred.2 dep hdep) d hd
  · rintro ⟨⟨k, hk⟩, hst, hdep⟩
    refine ⟨(k, n), ?_, rfl⟩
    rw [List.mem_filter]
    refine ⟨hk, ?_⟩
    simp only [Bool.and_eq_true, decide_eq_true_eq, List.all_eq_true]
    exact ⟨hst, fun dep hd => (depSatisfied_iff g.nodes dep).mpr (hdep dep hd)⟩

theorem addNode_root_of_some (g : TaskGraph) (n : TaskNode) (r : String)
    (h : g.root = some r) : (addNode g n).root = some r := by
  unfold addNode
  simp [h]

theorem addNodes_root_of_some (l : List TaskNode) :
    ∀ g r, g.root = some r → (addNodes g l).root = some r := by
  induction l with
  | nil => intro g r h; simpa [addNodes] using h
  | cons n t ih =>
    intro g r h
    have := addNode_root_of_some g n r h
    simpa [addNodes] using ih (addNode g n) r this

theorem addNodes_root_of_none (l : List TaskNode) :
    ∀ g, g.root = none →
      (addNodes g l).root = (l.find? (fun n => n.depends_on.isEmpty)).map (fun n => n.id) := by
  induction l with
  | nil => intro g h; simpa [addNodes] using h
  | cons n t ih =>
    intro g h
    cases hn : n.depends_on.isEmpty with
    | true =>
      have hroot : (addNode g n).root = some n.id := by
        unfold addNode
        simp [h, hn]
      have hall := addNodes_root_of_some t (addNode g n) n.id hroot
      have hf : List.find? (fun m : TaskNode => m.depends_on.isEmpty) (n :: t) = some n :=
        List.find?_cons_of_pos _ hn
      simp only [addNodes, List.foldl_cons] at hall ⊢
      rw [hall, hf]
      rfl
    | false =>
      have hroot : (addNode g n).root = none := by
        unfold addNode
        simp [h, hn]
      have hrec := ih (addNode g n) hroot
      have hf : List.find? (fun m : TaskNode => m.depends_on.isEmpty) (n :: t) =
          List.find? (fun m : TaskNode => m.depends_on.isEmpty) t :=
        List.find?_cons_of_neg _ (by simp [hn])
      simp only [addNodes, List.foldl_cons] at hrec ⊢
      rw [hrec, hf]

/-- C8: starting from a fresh graph, `root` ends up being the id of the
first added node with an empty dependency list (or stays unset when there
is none), and once `root` is set no later `add_node` call reassigns it. -/
theorem claim8_root_assignment :
    (∀ l : List TaskNode,
      (addNodes TaskGraph.emptyGraph l).root =
        (l.find? (fun n => n.depends_on.isEmpty)).map (fun n => n.id)) ∧
    (∀ (g : TaskGraph) (n : TaskNode) (r : String),
      g.root = some r → (addNode g n).root = some r) := by
  constructor
  · intro l
    exact addNodes_root_of_none l TaskGraph.emptyGraph rfl
  · exact addNode_root_of_some

/-- Witness for C8: two dependency-free nodes added in order; the first
becomes root, and a later dependency-free insertion does not displace an
existing root. -/
theorem claim8_root_assignment_witness :
    (addNodes TaskGraph.emptyGraph
      [⟨"a", "c", "dev", ["x"], .pending, none⟩, ⟨"b", "c", "dev", [], .pending, none⟩,
       ⟨"c", "c", "dev", [], .pending, none⟩]).root = some "b" ∧
    (addNode ⟨[], some "b"⟩ ⟨"c", "c", "dev", [], .pending, none⟩).root = some "b" := by
  constructor
  · rw [claim8_root_assignment.1]
    rfl
  · exact claim8_root_assignment.2 ⟨[], some "b"⟩ ⟨"c", "c", "dev", [], .pending, none⟩ "b" rfl

/-- C9: marking an id that is not in the node map (complete, running or
failed) leaves the graph unchanged and raises no error. -/
theorem claim9_mark_absent_noop (g : TaskGraph) (nodeId : String) (result : Option String)
    (h : dictGet g.nodes nodeId = none) :
    markComplete g nodeId result = g ∧ markRunning g nodeId = g ∧ markFailed g nodeId = g := by
  unfold markComplete markRunning markFailed
  simp [h]

/-- Witness for C9: a concrete one-node graph and an id absent from it. -/
theorem claim9_mark_absent_noop_witness :
    markComplete ⟨[("1", ⟨"1", "t", "dev", [], .pending, none⟩)], some "1"⟩ "2" (some "r") =
      ⟨[("1", ⟨"1", "t", "dev", [], .pending, none⟩)], some "1"⟩ ∧
    markRunning ⟨[("1", ⟨"1", "t", "dev", [], .pending, none⟩)], some "1"⟩ "2" =
      ⟨[("1", ⟨"1", "t", "dev", [], .pending, none⟩)], some "1"⟩ ∧
    markFailed ⟨[("1", ⟨"1", "t", "dev", [], .pending, none⟩)], some "1"⟩ "2" =
      ⟨[("1", ⟨"1", "t", "dev", [], .pending, none⟩)], some "1"⟩ :=
  claim9_mark_absent_noop ⟨[("1", ⟨"1", "t", "dev", [], .pending, none⟩)], some "1"⟩ "2"
    (some "r") (by decide)

theorem statusParse_statusValue (st : TaskStatus) :
    statusParse (statusValue st) = some st := by
  cases st <;> rfl

theorem deserializeEntry_serializeEntry (p : String × TaskNode) :
    deserializeEntry (serializeEntry p) = some p := by
  unfold serializeEntry deserializeEntry
  rw [statusParse_statusValue]
  rfl

theorem mapM_deserialize_serialize (l : List (String × TaskNode)) :
    (l.map serializeEntry).mapM deserializeEntry = some l := by
  induction l with
  | nil => rfl
  | cons p t ih =>
    rw [List.map_cons, List.mapM_cons, deserializeEntry_serializeEntry, ih]
    rfl

theorem deserializeGraph_serializeGraph (g : TaskGraph) :
    deserializeGraph (serializeGraph g) = some g := by
  unfold serializeGraph deserializeGraph
  rw [mapM_deserialize_serialize]
  rfl

/-- C2: loading the checkpoint id returned by `save` reconstructs the graph
exactly (same node dict — ids, content, agent, depends_on, status, result —
and the same root) together with the saved context. -/
theorem claim2_checkpoint_roundtrip {Ctx : Type} (store : CheckpointStore Ctx)
    (task_id : String) (g : TaskGraph) (context : Ctx) (nowCompact nowIso suffix : String) :
    loadCheckpoint (saveCheckpoint store task_id g context nowCompact nowIso suffix).2
        (saveCheckpoint store task_id g context nowCompact nowIso suffix).1 =
      some ⟨task_id ++ "_" ++ nowCompact ++ "_" ++ suffix, task_id, nowIso, g, context⟩ := by
  unfold saveCheckpoint loadCheckpoint
  rw [dictGet_dictInsert_self]
  simp [deserializeGraph_serializeGraph]

theorem charsLe_total : ∀ s t, charsLe s t = true ∨ charsLe t s = true := by
  intro s
  induction s with
  | nil => intro t; left; rfl
  | cons a s ih =>
    intro t
    cases t with
    | nil => right; rfl
    | cons b t2 =>
      rcases Nat.lt_trichotomy a.toNat b.toNat with h | h | h
      · left; simp [charsLe, h]
      · have hnb : ¬a.toNat < b.toNat := by omega
        have hnb2 : ¬b.toNat < a.toNat := by omega
        rcases ih t2 with hc | hc
        · left; simp [charsLe, hnb, hnb2, hc]
        · right; simp [charsLe, hnb, hnb2, hc]
      · right; simp [charsLe, h]

theorem charsLe_trans :
    ∀ s t u, charsLe s t = true → charsLe t u = true → charsLe s u = true := by
  intro s
  induction s with
  | nil => intro t u h1 h2; rfl
  | cons a s ih =>
    intro t u h1 h2
    cases t with
    | nil => simp [charsLe] at h1
    | cons b t2 =>
      cases u with
      | nil => simp [charsLe] at h2
      | cons c u2 =>
        by_cases hab : a.toNat < b.toNat
        · by_cases hbc : b.toNat < c.toNat
          · have hac : a.toNat < c.toNat := by omega
            simp [charsLe, hac]
          · by_cases hcb : c.toNat < b.toNat
            · simp [charsLe, hbc, hcb] at h2
            · have hac : a.toNat < c.toNat := by omega
              simp [charsLe, hac]
        · by_cases hba : b.toNat < a.toNat
          · simp [charsLe, hab, hba] at h1
          · by_cases hbc : b.toNat < c.toNat
            · have hac : a.toNat < c.toNat := by omega
              simp [charsLe, hac]
            · by_cases hcb : c.toNat < b.toNat
              · simp [charsLe, hbc, hcb] at h2
              · have hac : ¬a.toNat < c.toNat := by omega
                have hca : ¬c.toNat < a.toNat := by omega
                have h1b : charsLe s t2 = true := by
                  simpa [charsLe, hab, hba] using h1
                have h2b : charsLe t2 u2 = true := by
                  simpa [charsLe, hbc, hcb] using h2
                simp [charsLe, hac, hca, ih t2 u2 h1b h2b]

theorem globMatches_save_id (t nc suf : String) :
    globMatches t (t ++ "_" ++ nc ++ "_" ++ suf) = true := by
  unfold globMatches
  apply List.isPrefixOf_iff_prefix.mpr
  have hdata : (t ++ "_" ++ nc ++ "_" ++ suf).data =
      (t ++ "_").data ++ (nc.data ++ "_".data ++ suf.data) := by
    simp [String.data_append, List.append_assoc]
  rw [hdata]
  exact List.prefix_append _ _

/-- C3 (amended): `list_checkpoints(task_id)` returns exactly the stored
checkpoint ids that begin with `task_id` plus an underscore (so every
checkpoint saved under `task_id` appears, but a checkpoint of a different
task id that extends `task_id` with an underscore-separated suffix appears
as well), sorted lexicographically by code point. -/
theorem claim3_list_checkpoints {Ctx : Type} (store : CheckpointStore Ctx) (task_id : String) :
    List.Perm (listCheckpoints store task_id)
        ((store.map Prod.fst).filter (globMatches task_id)) ∧
    List.Sorted strLeRel (listCheckpoints store task_id) ∧
    (∀ (g : TaskGraph) (context : Ctx) (nowCompact nowIso suffix : String),
      (saveCheckpoint store task_id g context nowCompact nowIso suffix).1 ∈
        listCheckpoints (saveCheckpoint store task_id g context nowCompact nowIso suffix).2
          task_id) := by
  refine ⟨List.perm_insertionSort _ _, ?_, ?_⟩
  · haveI : IsTotal String strLeRel := ⟨fun a b => charsLe_total a.data b.data⟩
    haveI : IsTrans String strLeRel := ⟨fun a b c => charsLe_trans a.data b.data c.data⟩
    exact List.sorted_insertionSort _ _
  · intro g context nowCompact nowIso suffix
    unfold listCheckpoints
    have hperm := List.perm_insertionSort strLeRel
      ((((saveCheckpoint store task_id g context nowCompact nowIso suffix).2).map
        Prod.fst).filter (globMatches task_id))
    rw [hperm.mem_iff, List.mem_filter]
    exact ⟨dictInsert_key_mem _ _ _, globMatches_save_id task_id nowCompact suffix⟩

/-- C3 counterexample: a single checkpoint saved under task id `a_b` is
returned by `list_checkpoints("a")`, although it was saved under a
different task id — the glob filter matches on a string prefix, not on
the exact task id. -/
theorem claim3_counterexample :
    listCheckpoints
        (saveCheckpoint ([] : CheckpointStore Unit) "a_b" TaskGraph.emptyGraph ()
          "20250101_000000" "2025-01-01T00:00:00" "deadbeef").2 "a" =
      ["a_b_20250101_000000_deadbeef"] ∧
    (dictGet
        (saveCheckpoint ([] : CheckpointStore Unit) "a_b" TaskGraph.emptyGraph ()
          "20250101_000000" "2025-01-01T00:00:00" "deadbeef").2
        "a_b_20250101_000000_deadbeef").map (fun d => d.task_id) = some "a_b" ∧
    ("a_b" : String) ≠ "a" :=
  ⟨by decide, by decide, by decide⟩

theorem mentionsStr_of_parts (a b c : String) : mentionsStr (a ++ b ++ c) b :=
  ⟨a, c, rfl⟩

theorem find_retry_of_matches (s : String)
    (hm : ∃ r ∈ ERROR_PATTERNS, r.strategy = RecoveryStrategy.retry ∧
      reMatches r.alts s = true) :
    ∃ row, ERROR_PATTERNS.find? (fun r => reMatches r.alts s) = some row ∧
      row.strategy = RecoveryStrategy.retry ∧ 0 < row.wait := by
  obtain ⟨r, hrm, hrs, hrmatch⟩ := hm
  cases h0 : reMatches ["rate limit", "too many requests", "429"] s with
  | true =>
    refine ⟨⟨["rate limit", "too many requests", "429"], .retry, "Rate limit hit", 30⟩,
      ?_, rfl, by decide⟩
    unfold ERROR_PATTERNS
    exact List.find?_cons_of_pos _ h0
  | false =>
    cases h1 : reMatches ["timeout", "timed out"] s with
    | true =>
      refine ⟨⟨["timeout", "timed out"], .retry, "Request timed out", 5⟩, ?_, rfl, by decide⟩
      unfold ERROR_PATTERNS
      rw [List.find?_cons_of_neg _ (by simp [h0])]
      exact List.find?_cons_of_pos _ h1
    | false =>
      cases h2 : reMatches ["connection", "network", "unreachable"] s with
      | true =>
        refine ⟨⟨["connection", "network", "unreachable"], .retry, "Network issue", 10⟩,
          ?_, rfl, by decide⟩
        unfold ERROR_PATTERNS
        rw [List.find?_cons_of_neg _ (by simp [h0]), List.find?_cons_of_neg _ (by simp [h1])]
        exact List.find?_cons_of_pos _ h2
      | false =>
        exfalso
        simp only [ERROR_PATTERNS, List.mem_cons, List.not_mem_nil, or_false] at hrm
        rcases hrm with rfl | rfl | rfl | rfl | rfl | rfl
        · simp_all
        · simp_all
        · simp_all
        · simp_all
        · simp_all
        · simp_all

/-- C4: for an error whose lower-cased text matches a Retry pattern, the
first matching rule is a Retry rule with a positive wait; `analyze` returns
Retry with that wait while `attempt_count` does not exceed `max_retries`,
and otherwise Fallback with wait 0, a user message mentioning the attempt
count, and a non-empty suggested action. -/
theorem claim4_error_recovery_retry (max_retries attempt_count : Nat)
    (error task_content : String)
    (hm : ∃ r ∈ ERROR_PATTERNS, r.strategy = RecoveryStrategy.retry ∧
      reMatches r.alts (lowerStr error) = true) :
    ∃ row, ERROR_PATTERNS.find? (fun r => reMatches r.alts (lowerStr error)) = some row ∧
      row.strategy = RecoveryStrategy.retry ∧ 0 < row.wait ∧
      (attempt_count ≤ max_retries →
        analyze max_retries error task_content attempt_count =
          ⟨.retry, row.message ++ ". Retrying in " ++ toString row.wait ++ " seconds...",
           row.wait, none, none⟩) ∧
      (max_retries < attempt_count →
        analyze max_retries error task_content attempt_count =
          ⟨.fallback,
           row.message ++ ". Tried " ++ toString attempt_count ++
             " times. Trying alternative approach.",
           0, none, some "Use fallback model or method"⟩ ∧
        mentionsStr (analyze max_retries error task_content attempt_count).user_message
          (toString attempt_count) ∧
        ∃ sa, (analyze max_retries error task_content attempt_count).suggested_action =
          some sa ∧ sa ≠ "") := by
  obtain ⟨row, hf, hs, hw⟩ := find_retry_of_matches (lowerStr error) hm
  refine ⟨row, hf, hs, hw, ?_, ?_⟩
  · intro hle
    have hngt : ¬attempt_count > max_retries := by omega
    simp [analyze, hf, hs, hngt]
  · intro hgt
    have hcond : row.strategy = RecoveryStrategy.retry ∧ attempt_count > max_retries :=
      ⟨hs, hgt⟩
    have heq : analyze max_retries error task_content attempt_count =
        ⟨.fallback,
         row.message ++ ". Tried " ++ toString attempt_count ++
           " times. Trying alternative approach.",
         0, none, some "Use fallback model or method"⟩ := by
      simp only [analyze, hf, if_pos hcond]
    refine ⟨heq, ?_, ?_⟩
    · rw [heq]
      exact mentionsStr_of_parts (row.message ++ ". Tried ") (toString attempt_count)
        " times. Trying alternative approach."
    · rw [heq]
      exact ⟨"Use fallback model or method", rfl, by decide⟩

/-- Witness for C4: a rate-limit error with the default `max_retries = 3`
gives Retry with a 30-second wait at attempt 1 and Fallback at attempt 4. -/
theorem claim4_error_recovery_retry_witness :
    analyze 3 "Rate limit exceeded" "Generate a report" 1 =
      ⟨.retry, "Rate limit hit. Retrying in 30 seconds...", 30, none, none⟩ ∧
    analyze 3 "Rate limit exceeded" "Generate a report" 4 =
      ⟨.fallback, "Rate limit hit. Tried 4 times. Trying alternative approach.", 0, none,
       some "Use fallback model or method"⟩ := by
  have hm : ∃ r ∈ ERROR_PATTERNS, r.strategy = RecoveryStrategy.retry ∧
      reMatches r.alts (lowerStr "Rate limit exceeded") = true :=
    ⟨⟨["rate limit", "too many requests", "429"], .retry, "Rate limit hit", 30⟩,
      by decide, rfl, by decide⟩
  have hfind : ERROR_PATTERNS.find?
      (fun r => reMatches r.alts (lowerStr "Rate limit exceeded")) =
      some ⟨["rate limit", "too many requests", "429"], .retry, "Rate limit hit", 30⟩ := by
    decide
  obtain ⟨row, hf, hs, hw, hle, hgt⟩ :=
    claim4_error_recovery_retry 3 1 "Rate limit exceeded" "Generate a report" hm
  obtain ⟨row2, hf2, hs2, hw2, hle2, hgt2⟩ :=
    claim4_error_recovery_retry 3 4 "Rate limit exceeded" "Generate a report" hm
  rw [hfind] at hf hf2
  have hrow := Option.some_inj.mp hf
  have hrow2 := Option.some_inj.mp hf2
  constructor
  · have h1 := hle (by decide)
    rw [← hrow] at h1
    rw [h1]
    decide
  · have h4 := (hgt2 (by decide)).1
    rw [← hrow2] at h4
    rw [h4]
    decide

/-- C5 (amended): when `original.correlation_id` carries a non-empty id
whose slot is pending and unresolved, `respond` resolves exactly that slot,
exactly once, with a Response whose sender/recipient are swapped relative
to the original and whose content and correlation id are as requested,
leaving every other slot untouched; when the correlation id is missing or
empty, or the slot is absent or already resolved, `respond` changes
nothing and raises no error — so no slot is ever resolved twice. -/
theorem claim5_respond (pending : List (String × FutureState)) (original : AgentMessage)
    (content : String) (now : Nat) :
    (∀ cid, original.correlation_id = some cid → cid ≠ "" →
      dictGet pending cid = some .unresolved →
      respond pending original content now =
        dictInsert pending cid
          (.resolved ⟨original.recipient, original.sender, .response, content,
            some cid, now⟩) ∧
      dictGet (respond pending original content now) cid =
        some (.resolved ⟨original.recipient, original.sender, .response, content,
          some cid, now⟩) ∧
      (∀ k, k ≠ cid →
        dictGet (respond pending original content now) k = dictGet pending k)) ∧
    ((original.correlation_id = none ∨
      ∃ cid, original.correlation_id = some cid ∧
        (cid = "" ∨ dictGet pending cid = none ∨
          ∃ m, dictGet pending cid = some (.resolved m))) →
      respond pending original content now = pending) := by
  constructor
  · intro cid hcid hne hslot
    have hresp : respond pending original content now =
        dictInsert pending cid
          (.resolved ⟨original.recipient, original.sender, .response, content,
            some cid, now⟩) := by
      unfold respond
      simp only [hcid]
      rw [if_neg hne, hslot]
    refine ⟨hresp, ?_, ?_⟩
    · rw [hresp]
      exact dictGet_dictInsert_self _ _ _
    · intro k hk
      rw [hresp]
      exact dictGet_dictInsert_ne _ _ _ _ hk
  · rintro (hnone | ⟨cid, hcid, hbad⟩)
    · unfold respond
      simp only [hnone]
    · unfold respond
      simp only [hcid]
      rcases hbad with rfl | hnone2 | ⟨m, hres⟩
      · rw [if_pos rfl]
      · by_cases hce : cid = ""
        · rw [if_pos hce]
        · rw [if_neg hce, hnone2]
      · by_cases hce : cid = ""
        · rw [if_pos hce]
        · rw [if_neg hce, hres]

/-- Witness for C5: answering a pending request from `requester` to
`responder` resolves its slot with the swapped-direction response. -/
theorem claim5_respond_witness :
    respond [("abc", FutureState.unresolved)]
        ⟨"requester", "responder", .request, "Hello", some "abc", 0⟩ "Echo: Hello" 7 =
      dictInsert [("abc", FutureState.unresolved)] "abc"
        (.resolved ⟨"responder", "requester", .response, "Echo: Hello", some "abc", 7⟩) :=
  ((claim5_respond [("abc", FutureState.unresolved)]
    ⟨"requester", "responder", .request, "Hello", some "abc", 0⟩ "Echo: Hello" 7).1
    "abc" rfl (by decide) (by decide)).1

/-- C5 counterexample: a pending, unresolved slot exists under the
correlation id of the original message (the empty string), yet `respond`
resolves nothing — Python truthiness of `original.correlation_id` treats
the empty id like a missing one. -/
theorem claim5_counterexample :
    dictGet [("", FutureState.unresolved)] "" = some FutureState.unresolved ∧
    respond [("", FutureState.unresolved)]
        ⟨"requester", "responder", .request, "Hello", some "", 0⟩ "Echo: Hello" 0 =
      [("", FutureState.unresolved)] :=
  ⟨by decide, by decide⟩

theorem reflectGo_all_reject {R : Type} (step : Nat → String → StepResponse)
    (render : R → String) (task : String) (f : String → R) (max_retries : Nat)
    (h : ∀ k p, hasMarker (extractFeedback (step k p)) = true) :
    ∀ fuel retry (cur : R) (hist : List String), retry + fuel = max_retries + 1 →
      (reflectGo step render task (some f) max_retries fuel retry cur hist).approved = false ∧
      (reflectGo step render task (some f) max_retries fuel retry cur hist).retry_count =
        max_retries ∧
      (reflectGo step render task (some f) max_retries fuel retry
        cur hist).feedback_history.length = hist.length + fuel := by
  intro fuel
  induction fuel with
  | zero =>
    intro retry cur hist hsum
    exact ⟨rfl, rfl, rfl⟩
  | succ n ih =>
    intro retry cur hist hsum
    have hm := h retry (reflectionPrompt task (render cur))
    simp only [reflectGo, hm, Bool.true_eq_false, if_false]
    by_cases hrt : retry < max_retries
    · rw [if_pos hrt]
      have hrec := ih (retry + 1)
        (f (extractFeedback (step retry (reflectionPrompt task (render cur)))))
        (hist ++ [extractFeedback (step retry (reflectionPrompt task (render cur)))])
        (by omega)
      refine ⟨hrec.1, hrec.2.1, ?_⟩
      rw [hrec.2.2]
      simp
      omega
    · rw [if_neg hrt]
      have hrec := ih (retry + 1) cur
        (hist ++ [extractFeedback (step retry (reflectionPrompt task (render cur)))])
        (by omega)
      refine ⟨hrec.1, hrec.2.1, ?_⟩
      rw [hrec.2.2]
      simp
      omega

/-- C6: with an evaluator whose every reply carries the improvement marker,
`reflect` with an improvement function exhausts all `max_retries + 1`
evaluations and returns Approved = false, `retry_count = max_retries` and a
feedback history of `max_retries + 1` entries; without an improvement
function it stops after the first rejection with `retry_count = 0` and a
single history entry. -/
theorem claim6_reflection_exhaustion {R : Type} (step : Nat → String → StepResponse)
    (render : R → String) (task : String) (r : R) (f : String → R) (max_retries : Nat)
    (h : ∀ k p, hasMarker (extractFeedback (step k p)) = true) :
    ((reflect step render task r (some f) max_retries).approved = false ∧
     (reflect step render task r (some f) max_retries).retry_count = max_retries ∧
     (reflect step render task r (some f) max_retries).feedback_history.length =
       max_retries + 1) ∧
    reflect step render task r none max_retries =
      ⟨false, 0, r, [extractFeedback (step 0 (reflectionPrompt task (render r)))]⟩ := by
  constructor
  · have hrec := reflectGo_all_reject step render task f max_retries h
      (max_retries + 1) 0 r [] (by omega)
    exact ⟨hrec.1, hrec.2.1, by simpa using hrec.2.2⟩
  · have hm := h 0 (reflectionPrompt task (render r))
    unfold reflect
    simp only [reflectGo, hm, Bool.true_eq_false, if_false]
    rfl

/-- Witness for C6: an always-rejecting evaluator with `max_retries = 2`
and an improvement function gives Approved = false, retry_count = 2 and a
3-entry history; with no improvement function it stops at once. -/
theorem claim6_reflection_exhaustion_witness :
    (reflect (fun _ _ => some ["NEEDS_IMPROVEMENT: Still wrong"]) id "Task" "Initial"
      (some (fun fb => fb)) 2).approved = false ∧
    (reflect (fun _ _ => some ["NEEDS_IMPROVEMENT: Still wrong"]) id "Task" "Initial"
      (some (fun fb => fb)) 2).retry_count = 2 ∧
    (reflect (fun _ _ => some ["NEEDS_IMPROVEMENT: Still wrong"]) id "Task" "Initial"
      (some (fun fb => fb)) 2).feedback_history.length = 3 ∧
    reflect (fun _ _ => some ["NEEDS_IMPROVEMENT: Still wrong"]) id "Task" "Initial" none 2 =
      ⟨false, 0, "Initial",
       [extractFeedback (some ["NEEDS_IMPROVEMENT: Still wrong"])]⟩ := by
  have h := claim6_reflection_exhaustion (fun _ _ => some ["NEEDS_IMPROVEMENT: Still wrong"])
    id "Task" "Initial" (fun fb => fb) 2 (by
      intro k p
      show hasMarker (extractFeedback (some ["NEEDS_IMPROVEMENT: Still wrong"])) = true
      decide)
  exact ⟨h.1.1, h.1.2.1, h.1.2.2, h.2⟩

theorem reflectGo_reach {R : Type} (step : Nat → String → StepResponse)
    (render : R → String) (task : String) (f : String → R) (max_retries : Nat) (r : R) :
    ∀ k, k ≤ max_retries →
      (∀ i, i < k → hasMarker (extractFeedback (step i (reflectionPrompt task
        (render (reflectTrace step render task f r i).1)))) = true) →
      reflectGo step render task (some f) max_retries (max_retries + 1) 0 r [] =
        reflectGo step render task (some f) max_retries (max_retries + 1 - k) k
          (reflectTrace step render task f r k).1 (reflectTrace step render task f r k).2 := by
  intro k
  induction k with
  | zero => intro _ _; rfl
  | succ k ih =>
    intro hk hrej
    have hk1 : k ≤ max_retries := by omega
    rw [ih hk1 (fun i hi => hrej i (by omega))]
    obtain ⟨m, hm⟩ : ∃ m, max_retries + 1 - k = m + 1 := ⟨max_retries - k, by omega⟩
    rw [hm]
    have hmark := hrej k (by omega)
    simp only [reflectGo, hmark, Bool.true_eq_false, if_false]
    have hlt : k < max_retries := by omega
    rw [if_pos hlt]
    have hm2 : m = max_retries + 1 - (k + 1) := by omega
    rw [hm2]
    rfl

/-- C10: whenever an evaluator reply exposes no messages (no `msgs`
attribute or an empty list), the extracted feedback is the empty string,
which carries no improvement marker, so `reflect` approves on the spot:
if the replies of the first `k` attempts all rejected (so the loop, driven
by an improvement function, reached attempt `k ≤ max_retries`) and the
reply at attempt `k` exposes no messages, the outcome is Approved = true,
`retry_count = k` and exactly the `k` accumulated feedback entries; in
particular an empty reply at the first evaluation (with or without an
improvement function) gives `retry_count = 0` and an empty history. -/
theorem claim10_empty_reply_approves {R : Type} (step : Nat → String → StepResponse)
    (render : R → String) (task : String) (r : R) (f : String → R)
    (execute_fn : Option (String → R)) (max_retries k : Nat) :
    (k ≤ max_retries →
      (∀ i, i < k → hasMarker (extractFeedback (step i (reflectionPrompt task
        (render (reflectTrace step render task f r i).1)))) = true) →
      (step k (reflectionPrompt task (render (reflectTrace step render task f r k).1)) =
          none ∨
        step k (reflectionPrompt task (render (reflectTrace step render task f r k).1)) =
          some []) →
      extractFeedback (step k (reflectionPrompt task
        (render (reflectTrace step render task f r k).1))) = "" ∧
      reflect step render task r (some f) max_retries =
        ⟨true, k, (reflectTrace step render task f r k).1,
          (reflectTrace step render task f r k).2⟩) ∧
    ((step 0 (reflectionPrompt task (render r)) = none ∨
      step 0 (reflectionPrompt task (render r)) = some []) →
      extractFeedback (step 0 (reflectionPrompt task (render r))) = "" ∧
      reflect step render task r execute_fn max_retries = ⟨true, 0, r, []⟩) := by
  have hmk : hasMarker "" = false := rfl
  constructor
  · intro hk hrej hempty
    have hfb : extractFeedback (step k (reflectionPrompt task
        (render (reflectTrace step render task f r k).1))) = "" := by
      rcases hempty with h | h <;> rw [h] <;> rfl
    refine ⟨hfb, ?_⟩
    unfold reflect
    rw [reflectGo_reach step render task f max_retries r k hk hrej]
    obtain ⟨m, hm⟩ : ∃ m, max_retries + 1 - k = m + 1 := ⟨max_retries - k, by omega⟩
    rw [hm]
    simp only [reflectGo, hfb, hmk, if_pos]
  · intro hempty
    have hfb : extractFeedback (step 0 (reflectionPrompt task (render r))) = "" := by
      rcases hempty with h | h <;> rw [h] <;> rfl
    refine ⟨hfb, ?_⟩
    unfold reflect
    simp only [reflectGo, hfb, hmk, if_pos]

/-- Witness for C10: an evaluator that rejects at attempt 0 and then
returns a message-less reply at attempt 1 approves the improved result
with retry_count 1 and the one accumulated feedback entry; an evaluator
whose very first reply has no messages approves the initial result at
retry_count 0 with an empty history. -/
theorem claim10_empty_reply_approves_witness :
    reflect
        (fun i _ => if i = 0 then some ["NEEDS_IMPROVEMENT: x"] else (none : StepResponse))
        id "Task" "init" (some (fun fb => fb ++ "!")) 3 =
      ⟨true, 1, "NEEDS_IMPROVEMENT: x" ++ "!", ["NEEDS_IMPROVEMENT: x"]⟩ ∧
    reflect (fun _ _ => (none : StepResponse)) id "t" "r" none 3 = ⟨true, 0, "r", []⟩ := by
  constructor
  · have h := (claim10_empty_reply_approves
      (fun i _ => if i = 0 then some ["NEEDS_IMPROVEMENT: x"] else (none : StepResponse))
      id "Task" "init" (fun fb => fb ++ "!") none 3 1).1
      (by omega)
      (by
        intro i hi
        have hi0 : i = 0 := by omega
        subst hi0
        show hasMarker (extractFeedback (some ["NEEDS_IMPROVEMENT: x"])) = true
        decide)
      (Or.inl rfl)
    exact h.2
  · exact ((claim10_empty_reply_approves (fun _ _ => (none : StepResponse)) id "t" "r"
      (fun fb => fb) none 3 0).2 (Or.inl rfl)).2

theorem mentionsStr_append_left (a s x : String) (h : mentionsStr s x) :
    mentionsStr (a ++ s) x := by
  obtain ⟨pre, post, rfl⟩ := h
  exact ⟨a ++ pre, post, by simp [String.append_assoc]⟩

theorem joinSep_mentions (sep : String) :
    ∀ (l : List String) (x : String), x ∈ l → mentionsStr (joinSep sep l) x := by
  intro l
  induction l with
  | nil => intro x hx; cases hx
  | cons a t ih =>
    intro x hx
    cases t with
    | nil =>
      have hxa : x = a := by simpa using hx
      subst hxa
      exact ⟨"", "", by simp [joinSep]⟩
    | cons b t2 =>
      rcases List.mem_cons.mp hx with rfl | hx2
      · exact ⟨"", sep ++ joinSep sep (b :: t2), by simp [joinSep, String.append_assoc]⟩
      · obtain ⟨pre, post, hpp⟩ := ih x hx2
        refine ⟨a ++ sep ++ pre, post, ?_⟩
        show joinSep sep (a :: b :: t2) = a ++ sep ++ pre ++ x ++ post
        rw [show joinSep sep (a :: b :: t2) = a ++ sep ++ joinSep sep (b :: t2) from rfl, hpp]
        simp [String.append_assoc]

theorem callGo_all_fail :
    ∀ (entries : List (ModelConfig × Except String ModelResponse)),
      (∀ q ∈ entries, ∃ e, q.2 = Except.error e) →
      ∀ errs lastProv lastErr,
        (callGo entries errs lastProv lastErr).result =
          Except.error ("All models failed: " ++
            joinSep "; " ((errs ++ entries.filterMap errTriple).map fmtError)) := by
  intro entries
  induction entries with
  | nil =>
    intro hall errs lastProv lastErr
    simp [callGo]
  | cons q rest ih =>
    intro hall errs lastProv lastErr
    obtain ⟨e, he⟩ := hall q (List.mem_cons_self q rest)
    obtain ⟨cfg, out⟩ := q
    simp only at he
    subst he
    show (callGo rest (errs ++ [(cfg.provider, cfg.model, e)]) lastProv (some e)).result = _
    rw [ih (fun q hq => hall q (List.mem_cons_of_mem _ hq))]
    have hft : ((cfg, Except.error e) :: rest).filterMap errTriple =
        (cfg.provider, cfg.model, e) :: rest.filterMap errTriple := by
      simp [List.filterMap_cons, errTriple]
    rw [hft]
    simp [List.append_assoc]

theorem callGo_skip_errors :
    ∀ (pre rest : List (ModelConfig × Except String ModelResponse)),
      (∀ q ∈ pre, ∃ e, q.2 = Except.error e) →
      ∀ errs lastProv lastErr, ∃ errs2 lastErr2,
        callGo (pre ++ rest) errs lastProv lastErr = callGo rest errs2 lastProv lastErr2 := by
  intro pre rest
  induction pre with
  | nil => intro hall errs lastProv lastErr; exact ⟨errs, lastErr, rfl⟩
  | cons q pre2 ih =>
    intro hall errs lastProv lastErr
    obtain ⟨e, he⟩ := hall q (List.mem_cons_self q pre2)
    obtain ⟨cfg, out⟩ := q
    simp only at he
    subst he
    exact ih (fun q hq => hall q (List.mem_cons_of_mem _ hq))
      (errs ++ [(cfg.provider, cfg.model, e)]) lastProv (some e)

/-- C7 (amended): `call` walks the chain in order; failures before the
first success never propagate; the first successful entry determines the
outcome — its first reply message is returned when the response exposes
one (otherwise the raw response is returned) and `last_used_provider`
becomes its provider; when every entry fails, the call raises a terminal
failure whose message contains every attempted (provider, model, error)
triple. -/
theorem claim7_fallback_chain :
    (∀ (pre : List (ModelConfig × Except String ModelResponse)) (cfg : ModelConfig)
        (resp : ModelResponse) (post : List (ModelConfig × Except String ModelResponse)),
      (∀ q ∈ pre, ∃ e, q.2 = Except.error e) →
      (fallbackCall (pre ++ (cfg, Except.ok resp) :: post)).result =
        Except.ok (match resp with
          | some (c :: _) => CallReturn.msg c
          | _ => CallReturn.raw resp) ∧
      (fallbackCall (pre ++ (cfg, Except.ok resp) :: post)).last_used_provider =
        some cfg.provider) ∧
    (∀ entries : List (ModelConfig × Except String ModelResponse), entries ≠ [] →
      (∀ q ∈ entries, ∃ e, q.2 = Except.error e) →
      ∃ msg, (fallbackCall entries).result = Except.error msg ∧
        ∀ cfg e, (cfg, Except.error e) ∈ entries →
          mentionsStr msg (cfg.provider ++ "/" ++ cfg.model ++ ": " ++ e)) := by
  constructor
  · intro pre cfg resp post hall
    obtain ⟨errs2, lastErr2, heq⟩ :=
      callGo_skip_errors pre ((cfg, Except.ok resp) :: post) hall [] none none
    unfold fallbackCall
    rw [heq]
    cases resp with
    | none => exact ⟨rfl, rfl⟩
    | some l =>
      cases l with
      | nil => exact ⟨rfl, rfl⟩
      | cons c cs => exact ⟨rfl, rfl⟩
  · intro entries hne hall
    refine ⟨"All models failed: " ++
      joinSep "; " ((entries.filterMap errTriple).map fmtError), ?_, ?_⟩
    · have := callGo_all_fail entries hall [] none none
      simpa [fallbackCall] using this
    · intro cfg e hmem
      apply mentionsStr_append_left
      apply joinSep_mentions
      refine List.mem_map.mpr ⟨(cfg.provider, cfg.model, e), ?_, rfl⟩
      exact List.mem_filterMap.mpr ⟨(cfg, Except.error e), hmem, rfl⟩

/-- Witness for C7: the first entry fails, the second succeeds with reply
"Success"; the call returns that message and records the second provider.
A chain where both entries fail raises the aggregated terminal failure. -/
theorem claim7_fallback_chain_witness :
    (fallbackCall [(⟨"primary", "gpt-4"⟩, Except.error "Rate limit"),
        (⟨"fallback", "glm-4"⟩, Except.ok (some ["Success"]))]).result =
      Except.ok (CallReturn.msg "Success") ∧
    (fallbackCall [(⟨"primary", "gpt-4"⟩, Except.error "Rate limit"),
        (⟨"fallback", "glm-4"⟩, Except.ok (some ["Success"]))]).last_used_provider =
      some "fallback" ∧
    mentionsStr "All models failed: a/m1: Failed; b/m2: Failed"
      ("a" ++ "/" ++ "m1" ++ ": " ++ "Failed") := by
  have h1 := claim7_fallback_chain.1 [(⟨"primary", "gpt-4"⟩, Except.error "Rate limit")]
    ⟨"fallback", "glm-4"⟩ (some ["Success"]) []
    (by
      intro q hq
      have hq2 : q = (⟨"primary", "gpt-4"⟩, Except.error "Rate limit") := by simpa using hq
      exact ⟨"Rate limit", by rw [hq2]⟩)
  obtain ⟨msg, hres, hment⟩ := claim7_fallback_chain.2
    [(⟨"a", "m1"⟩, Except.error "Failed"), (⟨"b", "m2"⟩, Except.error "Failed")]
    (List.cons_ne_nil _ _)
    (by
      intro q hq
      rcases (by simpa using hq :
        q = (⟨"a", "m1"⟩, Except.error "Failed") ∨
        q = (⟨"b", "m2"⟩, Except.error "Failed")) with hq2 | hq2
      · exact ⟨"Failed", by rw [hq2]⟩
      · exact ⟨"Failed", by rw [hq2]⟩)
  have hmsg : msg = "All models failed: a/m1: Failed; b/m2: Failed" := by
    have hcomp : (fallbackCall [(⟨"a", "m1"⟩, Except.error "Failed"),
        (⟨"b", "m2"⟩, Except.error "Failed")]).result =
        Except.error "All models failed: a/m1: Failed; b/m2: Failed" := rfl
    rw [hcomp] at hres
    exact (Except.error.injEq _ _ ▸ hres.symm : _)
  constructor
  · exact h1.1
  constructor
  · exact h1.2
  · rw [← hmsg]
    exact hment ⟨"a", "m1"⟩ "Failed" (by simp)

/-- C7 counterexample: a chain whose single entry succeeds with a response
exposing an empty message list — the call succeeds and records the
provider, but returns the raw response, not a first reply message. -/
theorem claim7_counterexample :
    (fallbackCall [(⟨"p", "m"⟩, Except.ok (some []))]).result =
      Except.ok (CallReturn.raw (some [])) ∧
    (fallbackCall [(⟨"p", "m"⟩, Except.ok (some []))]).last_used_provider = some "p" :=
  ⟨rfl, rfl⟩
